import Mathlib

/-!
Shallow embedding of the pytorch-template repository: the entry log of
base/base_logger.py and the epoch runner of trainer/trainer.py.

Modelling conventions:
* numeric tensor scalars are rationals (an exact idealisation of floats);
* a Python dict is an insertion-ordered association list with
  last-write-wins update, matching CPython's observable dict semantics;
* a raised Python exception is an explicit error value (Except / PyOutcome);
* the external collaborators (model, loss, metric functions, optimizer,
  visdom chart sink) are parameters of the configuration, with their net
  observable effect recorded in the runner state.
-/

namespace PTT

/-- Outcome of a Python call: either a value is returned normally or an
exception is raised. -/
inductive PyOutcome (α : Type) : Type
  | returned (v : α)
  | raised (msg : String)
  deriving DecidableEq, Repr

/-- Values observable from the body of BaseLogger.log. The source line is
"return NotImplementedError": it returns the exception class itself as a value. -/
inductive LogRet : Type
  | notImplementedErrorClass
  deriving DecidableEq, Repr

/-- Python dict insert (d[k] = v) on an insertion-ordered association list:
an existing key keeps its position and receives the new value, a new key is
appended at the end. -/
def pyInsertNat {α : Type} (d : List (ℕ × α)) (k : ℕ) (v : α) : List (ℕ × α) :=
  if (d.lookup k).isSome then d.map (fun p => if p.1 = k then (k, v) else p)
  else d ++ [(k, v)]

/-- base_logger.py, class BaseLogger: self.entries is a dict keyed by
1-based sequence position. -/
structure BaseLogger (α : Type) where
  entries : List (ℕ × α)
  deriving DecidableEq, Repr

/-- BaseLogger.__init__: self.entries = {}. -/
def BaseLogger.init {α : Type} : BaseLogger α := ⟨[]⟩

/-- BaseLogger.add_entry: self.entries[len(self.entries) + 1] = entry. -/
def BaseLogger.add_entry {α : Type} (l : BaseLogger α) (e : α) : BaseLogger α :=
  ⟨pyInsertNat l.entries (l.entries.length + 1) e⟩

/-- BaseLogger.log: the body is "return NotImplementedError" — a normal
return of the exception class object; nothing is raised. -/
def BaseLogger.log {α : Type} (_l : BaseLogger α) : PyOutcome LogRet :=
  .returned .notImplementedErrorClass

/-- Runs add_entry once per element of the list, in order. -/
def appendAll {α : Type} (l : BaseLogger α) (es : List α) : BaseLogger α :=
  es.foldl BaseLogger.add_entry l

/-- The association list [(k, e0), (k+1, e1), ...]: consecutive integer keys
starting at k, values in list order. -/
def seqEntries {α : Type} : ℕ → List α → List (ℕ × α)
  | _, [] => []
  | k, e :: es => (k, e) :: seqEntries (k + 1) es

theorem seqEntries_length {α : Type} : ∀ (es : List α) (k : ℕ),
    (seqEntries k es).length = es.length
  | [], _ => rfl
  | _ :: es, k => by simp [seqEntries, seqEntries_length es (k + 1)]

theorem seqEntries_lookup_none {α : Type} : ∀ (es : List α) (k m : ℕ),
    k + es.length ≤ m → (seqEntries k es).lookup m = none
  | [], _, _, _ => rfl
  | e :: es, k, m, h => by
    have hk : (m == k) = false := by
      simp only [beq_eq_false_iff_ne, ne_eq]
      simp only [List.length_cons] at h
      omega
    simp only [seqEntries, List.lookup, hk]
    exact seqEntries_lookup_none es (k + 1) m (by simp only [List.length_cons] at h; omega)

theorem seqEntries_snoc {α : Type} : ∀ (es : List α) (k : ℕ) (e : α),
    seqEntries k (es ++ [e]) = seqEntries k es ++ [(k + es.length, e)]
  | [], _, _ => rfl
  | x :: es, k, e => by
    have ih := seqEntries_snoc es (k + 1) e
    have hk : k + 1 + es.length = k + (es.length + 1) := by omega
    calc seqEntries k ((x :: es) ++ [e])
        = (k, x) :: seqEntries (k + 1) (es ++ [e]) := rfl
      _ = (k, x) :: (seqEntries (k + 1) es ++ [(k + 1 + es.length, e)]) := by rw [ih]
      _ = (k, x) :: (seqEntries (k + 1) es ++ [(k + (es.length + 1), e)]) := by rw [hk]
      _ = seqEntries k (x :: es) ++ [(k + (x :: es).length, e)] := rfl

theorem appendAll_entries {α : Type} (es : List α) :
    (appendAll BaseLogger.init es).entries = seqEntries 1 es := by
  induction es using List.reverseRecOn with
  | nil => rfl
  | append_singleton es e ih =>
    have hfold : appendAll (BaseLogger.init (α := α)) (es ++ [e])
        = (appendAll BaseLogger.init es).add_entry e := by
      simp [appendAll, List.foldl_append]
    rw [hfold]
    show pyInsertNat (appendAll BaseLogger.init es).entries
        ((appendAll BaseLogger.init es).entries.length + 1) e = _
    rw [ih, seqEntries_length, seqEntries_snoc]
    have hnone : (seqEntries 1 es).lookup (es.length + 1) = none :=
      seqEntries_lookup_none es 1 (es.length + 1) (by omega)
    rw [pyInsertNat, hnone]
    simp [Nat.add_comm]

/-- Claim C8: every append on the entry log inserts at sequence position
(current count + 1), grows the log by exactly one, and after n appends the
keys are exactly the dense integers 1..n in append order (seqEntries 1 es),
with no prior entry removed or mutated (the new state is the old list with
one pair appended). -/
theorem claim8_add_entry_dense_keys {α : Type} (es : List α) (e : α) :
    (appendAll BaseLogger.init es).entries = seqEntries 1 es ∧
    (appendAll BaseLogger.init es).entries.length = es.length ∧
    ((appendAll BaseLogger.init es).add_entry e).entries
      = (appendAll BaseLogger.init es).entries ++ [(es.length + 1, e)] := by
  refine ⟨appendAll_entries es, ?_, ?_⟩
  · rw [appendAll_entries es, seqEntries_length]
  · have h : ((appendAll BaseLogger.init es).add_entry e).entries
        = (appendAll BaseLogger.init (es ++ [e])).entries := by
      simp [appendAll, List.foldl_append, BaseLogger.add_entry]
    rw [h, appendAll_entries (es ++ [e]), appendAll_entries es, seqEntries_snoc,
      Nat.add_comm 1 es.length]

/-- Claim C3 evaluation: calling log on any base-type instance returns the
NotImplementedError class as a normal value; it never raises. This refutes
the claim that the call raises a not-implemented error. -/
theorem claim3_log_returns_not_raises {α : Type} (l : BaseLogger α) :
    l.log = PyOutcome.returned LogRet.notImplementedErrorClass ∧
    ∀ m, l.log ≠ PyOutcome.raised m :=
  ⟨rfl, fun _ h => PyOutcome.noConfusion h⟩

/-! Trainer embedding (trainer/trainer.py). The scalar extracted from a loss
tensor (loss.data[0]) is a rational; the per-batch net effect of
optimizer.zero_grad / loss.backward / optimizer.step on the parameters is an
abstract update function supplied by the configuration; model.train() and
model.eval() toggle a behavioural mode the model function may observe. -/

/-- Behavioural mode of the model (model.train() / model.eval()). -/
inductive Mode : Type
  | train
  | eval
  deriving DecidableEq, Repr

/-- Error taxonomy for an epoch call. zeroDivision is Python's
ZeroDivisionError from the unguarded division by len(data_loader);
emptyDataSource is the spec's EmptyDataSourceError (listed so statements can
distinguish it; the source never produces it). -/
inductive TrainError : Type
  | zeroDivision
  | emptyDataSource
  deriving DecidableEq, Repr

/-- Value stored in the epoch summary dict: a scalar or a list of scalars. -/
inductive LogValue : Type
  | num (q : ℚ)
  | arr (l : List ℚ)
  deriving DecidableEq, Repr

/-- Epoch summary: a Python dict with string keys, kept in insertion order. -/
abbrev PyDict := List (String × LogValue)

/-- Python dict lookup d[k] (as an Option). -/
def pyLookup (d : PyDict) (k : String) : Option LogValue := d.lookup k

/-- One entry of the left dict after merging: it keeps its key and position,
but a value from the right dict wins when the key is present there. -/
def mergeEntry (b : PyDict) (p : String × LogValue) : String × LogValue :=
  match b.lookup p.1 with
  | some v => (p.1, v)
  | none => p

/-- Python dict merge of two dicts with unique keys, as in the source line
log = \x7b**log, **val_log\x7d: keys of a keep their position but b's value wins;
keys only in b follow in b's order. -/
def pyMerge (a b : PyDict) : PyDict :=
  a.map (mergeEntry b) ++ b.filter (fun p => (a.lookup p.1).isNone)

/-- Content of one emitted progress line
"Train Epoch: e [processed/total (percent%)] Loss: l". -/
structure ProgressLine : Type where
  epoch : ℤ
  processed : ℕ
  total : ℕ
  percent : ℚ
  lossShown : ℚ
  deriving DecidableEq, Repr

/-- Fixed configuration of the Trainer (set in __init__). The five type
parameters are the parameter space of the model and the tensor sorts. -/
structure Config (P Data Target Output Labels : Type) : Type where
  /-- model(data) under a behavioural mode: output = self.model(data). -/
  modelF : Mode → P → Data → Output
  /-- loss = self.loss(output, target), as the scalar loss.data[0]. -/
  lossF : Output → Target → ℚ
  /-- np.argmax(output, axis=1): predicted class labels. -/
  argmaxF : Output → Labels
  /-- target.cpu().data.numpy(): the label view of a target handed to metrics. -/
  targetLabels : Target → Labels
  /-- the ordered list of configured metric functions. -/
  metrics : List (Labels → Labels → ℚ)
  /-- net effect on the parameters of zero_grad; backward; optimizer.step()
  for one batch (train epoch only). -/
  optStep : P → Data → Target → P
  /-- the training batch source, in iteration order. -/
  data_loader : List (Data × Target)
  /-- the optional validation batch source. -/
  valid_data_loader : Option (List (Data × Target))
  /-- self.batch_size = data_loader.batch_size. -/
  batch_size : ℕ
  /-- self.verbosity (from BaseTrainer config). -/
  verbosity : ℕ
  /-- self.visualize: gates the visdom chart sink. -/
  visualize : Bool
  /-- self.with_cuda: device placement flag (value-transparent here). -/
  with_cuda : Bool

/-- self.log_step = int(np.sqrt(self.batch_size)), precomputed in __init__. -/
def Config.log_step {P Data Target Output Labels : Type}
    (c : Config P Data Target Output Labels) : ℕ :=
  Nat.sqrt c.batch_size

/-- self.valid = True if self.valid_data_loader is not None else False. -/
def Config.valid {P Data Target Output Labels : Type}
    (c : Config P Data Target Output Labels) : Bool :=
  c.valid_data_loader.isSome

/-- Mutable state of the runner across epoch calls: model parameters, the
model's behavioural mode, the two lazily created visdom line series (each a
list of (x, y) points in plot order; creation via viz.line(Y=[y]) gives the
visdom default x-coordinate 0), and the lines emitted via logger.info. -/
structure RunnerState (P : Type) : Type where
  params : P
  mode : Mode
  plt_train_loss : Option (List (ℤ × ℚ))
  plt_val_loss : Option (List (ℤ × ℚ))
  logLines : List ProgressLine
  deriving DecidableEq, Repr

/-- Fresh state after __init__ (both chart handles are None; no lines yet;
the initial mode is irrelevant because each epoch call sets it on entry). -/
def initState {P : Type} (p : P) : RunnerState P :=
  { params := p, mode := Mode.train, plt_train_loss := none,
    plt_val_loss := none, logLines := [] }

/-- Element-wise vector addition (numpy array +=). -/
def vecAdd (a b : List ℚ) : List ℚ := List.zipWith (· + ·) a b

/-- Trainer._eval_metrics: starting from np.zeros(len(metrics)), slot i
receives 0 + metrics[i](np.argmax(output, axis=1), target). -/
def evalMetrics {P Data Target Output Labels : Type}
    (c : Config P Data Target Output Labels) (output : Output) (target : Target) :
    List ℚ :=
  c.metrics.map (fun m => m (c.argmaxF output) (c.targetLabels target))

/-- Accumulator of the training batch loop: the runner state plus
total_loss and total_metrics. -/
structure TrainAcc (P : Type) : Type where
  st : RunnerState P
  total_loss : ℚ
  total_metrics : List ℚ
  deriving DecidableEq, Repr

/-- Body of the training batch loop for one (batch_idx, (data, target)).
Order as in source: forward, loss, backward+step, accumulate, progress line
(when verbosity ≥ 2 and batch_idx % log_step == 0), chart point (create the
series on the first point, else append at
x = batch_idx + (epoch - 1) * len(data_loader)). -/
def trainStep {P Data Target Output Labels : Type}
    (c : Config P Data Target Output Labels) (epoch : ℤ) (batch_idx : ℕ)
    (acc : TrainAcc P) (b : Data × Target) : TrainAcc P :=
  let B := c.data_loader.length
  let output := c.modelF acc.st.mode acc.st.params b.1
  let lossVal := c.lossF output b.2
  let params1 := c.optStep acc.st.params b.1 b.2
  let lines1 :=
    if 2 ≤ c.verbosity ∧ batch_idx % c.log_step = 0 then
      acc.st.logLines ++ [⟨epoch, batch_idx * c.batch_size, B * c.batch_size,
        100 * (batch_idx : ℚ) / (B : ℚ), lossVal⟩]
    else acc.st.logLines
  let plt1 :=
    if c.visualize then
      match acc.st.plt_train_loss with
      | none => some [((0 : ℤ), lossVal)]
      | some pts => some (pts ++ [((batch_idx : ℤ) + (epoch - 1) * (B : ℤ), lossVal)])
    else acc.st.plt_train_loss
  { st := { acc.st with params := params1, logLines := lines1, plt_train_loss := plt1 },
    total_loss := acc.total_loss + lossVal,
    total_metrics := vecAdd acc.total_metrics (evalMetrics c output b.2) }

/-- The enumerate(...) loop of _train_epoch: batch_idx counts from the given
start index. -/
def trainLoop {P Data Target Output Labels : Type}
    (c : Config P Data Target Output Labels) (epoch : ℤ) :
    ℕ → List (Data × Target) → TrainAcc P → TrainAcc P
  | _, [], acc => acc
  | i, b :: bs, acc => trainLoop c epoch (i + 1) bs (trainStep c epoch i acc b)

/-- The accumulation loop of _valid_epoch: per batch, forward pass, loss and
metric accumulation only — no parameter update, no progress line, no
per-batch chart point. -/
def validLoop {P Data Target Output Labels : Type}
    (c : Config P Data Target Output Labels) (md : Mode) (p : P) :
    List (Data × Target) → ℚ × List ℚ → ℚ × List ℚ
  | [], t => t
  | b :: bs, t =>
    validLoop c md p bs
      (t.1 + c.lossF (c.modelF md p b.1) b.2,
       vecAdd t.2 (evalMetrics c (c.modelF md p b.1) b.2))

/-- Totals of _valid_epoch starting from total_val_loss = 0 and
total_val_metrics = np.zeros(len(metrics)). -/
def validAccum {P Data Target Output Labels : Type}
    (c : Config P Data Target Output Labels) (md : Mode) (p : P)
    (batches : List (Data × Target)) : ℚ × List ℚ :=
  validLoop c md p batches (0, List.replicate c.metrics.length 0)

/-- Trainer._valid_epoch over the batches of the validation source:
model.eval(), accumulate loss and metrics, optionally plot one point of mean
validation loss (series created on the first point with the sink's default
x = 0, thereafter appended at x = epoch - 1), and return the val_loss /
val_metrics dict. The divisions total / len(valid_data_loader) are
unguarded in the source; an empty source raises ZeroDivisionError, modelled
as the explicit zeroDivision error at the point of first division. -/
def validEpoch {P Data Target Output Labels : Type}
    (c : Config P Data Target Output Labels) (vb : List (Data × Target))
    (s : RunnerState P) (epoch : ℤ) :
    Except TrainError (RunnerState P × PyDict) :=
  let s0 : RunnerState P := { s with mode := Mode.eval }
  let t := validAccum c s0.mode s0.params vb
  let Bv := vb.length
  if Bv = 0 then .error .zeroDivision
  else
    let meanLoss := t.1 / (Bv : ℚ)
    let s1 :=
      if c.visualize then
        match s0.plt_val_loss with
        | none => { s0 with plt_val_loss := some [((0 : ℤ), meanLoss)] }
        | some pts => { s0 with plt_val_loss := some (pts ++ [(epoch - 1, meanLoss)]) }
      else s0
    .ok (s1, [("val_loss", LogValue.num meanLoss),
              ("val_metrics", LogValue.arr (t.2.map (fun q => q / (Bv : ℚ))))])

/-- Tail of _train_epoch when a validation source is configured: run
_valid_epoch from the post-loop state and merge val_log over log
(log = \x7b**log, **val_log\x7d); a validation error propagates unchanged. -/
def mergeValid {P Data Target Output Labels : Type}
    (c : Config P Data Target Output Labels) (vb : List (Data × Target))
    (st : RunnerState P) (epoch : ℤ) (log : PyDict) :
    Except TrainError (RunnerState P × PyDict) :=
  match validEpoch c vb st epoch with
  | .error e => .error e
  | .ok (s1, val_log) => .ok (s1, pyMerge log val_log)

/-- Trainer._train_epoch: model.train(), run the batch loop, build the
log dict with the unguarded divisions by len(data_loader) (an empty training
source raises ZeroDivisionError), then, when a validation source is
configured, run _valid_epoch and merge val_log over log. -/
def trainEpoch {P Data Target Output Labels : Type}
    (c : Config P Data Target Output Labels) (s : RunnerState P) (epoch : ℤ) :
    Except TrainError (RunnerState P × PyDict) :=
  let s0 : RunnerState P := { s with mode := Mode.train }
  let acc := trainLoop c epoch 0 c.data_loader
    ⟨s0, 0, List.replicate c.metrics.length 0⟩
  let B := c.data_loader.length
  if B = 0 then .error .zeroDivision
  else
    let log : PyDict :=
      [("loss", LogValue.num (acc.total_loss / (B : ℚ))),
       ("metrics", LogValue.arr (acc.total_metrics.map (fun q => q / (B : ℚ))))]
    match c.valid_data_loader with
    | none => .ok (acc.st, log)
    | some vb => mergeValid c vb acc.st epoch log

/-- One epoch of the surrounding loop: run _train_epoch and keep the runner
state, discarding the summary; an error aborts the run. -/
def epochStep {P Data Target Output Labels : Type}
    (c : Config P Data Target Output Labels) (s1 : RunnerState P)
    (epoch : ℤ) : Except TrainError (RunnerState P) :=
  match trainEpoch c s1 epoch with
  | .error e => .error e
  | .ok (s2, _) => .ok s2

/-- Sequential run of epochs 1, 2, ..., k, threading the runner state (the
epoch loop of the surrounding base trainer). -/
def runEpochs {P Data Target Output Labels : Type}
    (c : Config P Data Target Output Labels) (s : RunnerState P) :
    ℕ → Except TrainError (RunnerState P)
  | 0 => .ok s
  | k + 1 =>
    match runEpochs c s k with
    | .error e => .error e
    | .ok s1 => epochStep c s1 ((k : ℤ) + 1)

/-! Projections of the batch loop used to state the claims: the per-batch
scalar losses, per-batch metric vectors, and expected progress lines, each
following the parameter updates of the training loop. -/

/-- The per-batch scalar loss values of one training epoch, in batch order,
following the parameter updates performed by the optimizer step. -/
def batchLosses {P Data Target Output Labels : Type}
    (c : Config P Data Target Output Labels) (md : Mode) :
    P → List (Data × Target) → List ℚ
  | _, [] => []
  | p, b :: bs =>
    c.lossF (c.modelF md p b.1) b.2 :: batchLosses c md (c.optStep p b.1 b.2) bs

/-- The per-batch metric vectors (_eval_metrics output) of one training
epoch, in batch order, following the parameter updates. -/
def batchMetricVecs {P Data Target Output Labels : Type}
    (c : Config P Data Target Output Labels) (md : Mode) :
    P → List (Data × Target) → List (List ℚ)
  | _, [] => []
  | p, b :: bs =>
    evalMetrics c (c.modelF md p b.1) b.2 :: batchMetricVecs c md (c.optStep p b.1 b.2) bs

/-- Value of one metric function on one batch: the metric applied to the
arg-max class labels of the model output and the target labels. -/
def metricOnBatch {P Data Target Output Labels : Type}
    (c : Config P Data Target Output Labels) (m : Labels → Labels → ℚ)
    (md : Mode) (p : P) (b : Data × Target) : ℚ :=
  m (c.argmaxF (c.modelF md p b.1)) (c.targetLabels b.2)

/-- The per-batch values of one fixed metric function across one training
epoch, following the parameter updates. -/
def batchMetricSeries {P Data Target Output Labels : Type}
    (c : Config P Data Target Output Labels) (m : Labels → Labels → ℚ)
    (md : Mode) : P → List (Data × Target) → List ℚ
  | _, [] => []
  | p, b :: bs =>
    metricOnBatch c m md p b :: batchMetricSeries c m md (c.optStep p b.1 b.2) bs

/-- Spec-side characterisation for claim C9: the progress lines of one
training epoch — exactly one line for batch j when the verbosity is at least
2 and j is a multiple of floor(sqrt(batch_size)); the line carries the epoch
number, examples processed so far, total examples, percentage complete and
the current batch loss. -/
def specLines {P Data Target Output Labels : Type}
    (c : Config P Data Target Output Labels) (epoch : ℤ) (md : Mode) :
    ℕ → P → List (Data × Target) → List ProgressLine
  | _, _, [] => []
  | j, p, b :: bs =>
    (if 2 ≤ c.verbosity ∧ Nat.sqrt c.batch_size ∣ j then
      [⟨epoch, j * c.batch_size, c.data_loader.length * c.batch_size,
        100 * (j : ℚ) / (c.data_loader.length : ℚ),
        c.lossF (c.modelF md p b.1) b.2⟩]
     else [])
    ++ specLines c epoch md (j + 1) (c.optStep p b.1 b.2) bs

section LoopLemmas

variable {P Data Target Output Labels : Type}
variable (c : Config P Data Target Output Labels) (epoch : ℤ)

theorem trainLoop_mode : ∀ (bs : List (Data × Target)) (j : ℕ) (acc : TrainAcc P),
    (trainLoop c epoch j bs acc).st.mode = acc.st.mode
  | [], _, _ => rfl
  | b :: bs, j, acc => by
    rw [trainLoop, trainLoop_mode bs (j + 1) (trainStep c epoch j acc b)]
    rfl

theorem trainLoop_plt_val : ∀ (bs : List (Data × Target)) (j : ℕ) (acc : TrainAcc P),
    (trainLoop c epoch j bs acc).st.plt_val_loss = acc.st.plt_val_loss
  | [], _, _ => rfl
  | b :: bs, j, acc => by
    rw [trainLoop, trainLoop_plt_val bs (j + 1) (trainStep c epoch j acc b)]
    rfl

theorem trainLoop_total_loss :
    ∀ (bs : List (Data × Target)) (j : ℕ) (acc : TrainAcc P),
    (trainLoop c epoch j bs acc).total_loss
      = acc.total_loss + (batchLosses c acc.st.mode acc.st.params bs).sum
  | [], _, acc => by simp [trainLoop, batchLosses]
  | b :: bs, j, acc => by
    rw [trainLoop, trainLoop_total_loss bs (j + 1) (trainStep c epoch j acc b)]
    show acc.total_loss + c.lossF (c.modelF acc.st.mode acc.st.params b.1) b.2
        + (batchLosses c acc.st.mode (c.optStep acc.st.params b.1 b.2) bs).sum = _
    rw [batchLosses, List.sum_cons]
    ring

theorem trainLoop_total_metrics :
    ∀ (bs : List (Data × Target)) (j : ℕ) (acc : TrainAcc P),
    (trainLoop c epoch j bs acc).total_metrics
      = (batchMetricVecs c acc.st.mode acc.st.params bs).foldl vecAdd acc.total_metrics
  | [], _, acc => by simp [trainLoop, batchMetricVecs]
  | b :: bs, j, acc => by
    rw [trainLoop, trainLoop_total_metrics bs (j + 1) (trainStep c epoch j acc b)]
    rfl

theorem trainLoop_logLines (hbs : 0 < c.batch_size) :
    ∀ (bs : List (Data × Target)) (j : ℕ) (acc : TrainAcc P),
    (trainLoop c epoch j bs acc).st.logLines
      = acc.st.logLines ++ specLines c epoch acc.st.mode j acc.st.params bs
  | [], _, acc => by simp [trainLoop, specLines]
  | b :: bs, j, acc => by
    rw [trainLoop, trainLoop_logLines hbs bs (j + 1) (trainStep c epoch j acc b)]
    have hguard : (2 ≤ c.verbosity ∧ j % c.log_step = 0)
        ↔ (2 ≤ c.verbosity ∧ Nat.sqrt c.batch_size ∣ j) := by
      rw [Config.log_step, Nat.dvd_iff_mod_eq_zero]
    show (if 2 ≤ c.verbosity ∧ j % c.log_step = 0 then
            acc.st.logLines ++ [_] else acc.st.logLines)
          ++ specLines c epoch acc.st.mode (j + 1) (c.optStep acc.st.params b.1 b.2) bs
        = acc.st.logLines ++ specLines c epoch acc.st.mode j acc.st.params (b :: bs)
    rw [specLines]
    by_cases hg : 2 ≤ c.verbosity ∧ Nat.sqrt c.batch_size ∣ j
    · rw [if_pos (hguard.mpr hg), if_pos hg]
      simp
    · rw [if_neg (fun h => hg (hguard.mp h)), if_neg hg]
      simp

end LoopLemmas

/-! Vector-accumulation lemmas: the numpy array += over the batch loop,
slot by slot. -/

theorem vecAdd_length (a b : List ℚ) (h : b.length = a.length) :
    (vecAdd a b).length = a.length := by
  simp [vecAdd, h]

theorem vecAdd_getD (a b : List ℚ) (i : ℕ) (hab : b.length = a.length)
    (hi : i < a.length) :
    (vecAdd a b).getD i 0 = a.getD i 0 + b.getD i 0 := by
  simp only [vecAdd, List.getD_eq_getElem?_getD, List.getElem?_zipWith]
  rw [List.getElem?_eq_getElem hi, List.getElem?_eq_getElem (by omega : i < b.length)]
  rfl

theorem foldl_vecAdd_length : ∀ (vs : List (List ℚ)) (init : List ℚ),
    (∀ v ∈ vs, v.length = init.length) →
    (vs.foldl vecAdd init).length = init.length
  | [], _, _ => rfl
  | v :: vs, init, h => by
    rw [List.foldl_cons]
    have h1 : (vecAdd init v).length = init.length :=
      vecAdd_length init v (h v (by simp))
    rw [foldl_vecAdd_length vs (vecAdd init v)
      (fun w hw => by rw [h1]; exact h w (by simp [hw])), h1]

theorem foldl_vecAdd_getD : ∀ (vs : List (List ℚ)) (init : List ℚ) (i : ℕ),
    (∀ v ∈ vs, v.length = init.length) → i < init.length →
    (vs.foldl vecAdd init).getD i 0
      = init.getD i 0 + (vs.map (fun v => v.getD i 0)).sum
  | [], _, _, _, _ => by simp
  | v :: vs, init, i, h, hi => by
    have h1 : (vecAdd init v).length = init.length :=
      vecAdd_length init v (h v (by simp))
    rw [List.foldl_cons,
      foldl_vecAdd_getD vs (vecAdd init v)
        i (fun w hw => by rw [h1]; exact h w (by simp [hw])) (by rw [h1]; exact hi),
      vecAdd_getD init v i (h v (by simp)) hi, List.map_cons, List.sum_cons]
    ring

theorem evalMetrics_length {P Data Target Output Labels : Type}
    (c : Config P Data Target Output Labels) (o : Output) (t : Target) :
    (evalMetrics c o t).length = c.metrics.length := by
  simp [evalMetrics]

theorem evalMetrics_getD {P Data Target Output Labels : Type}
    (c : Config P Data Target Output Labels) (o : Output) (t : Target)
    (i : ℕ) (hi : i < c.metrics.length) :
    (evalMetrics c o t).getD i 0
      = (c.metrics.get ⟨i, hi⟩) (c.argmaxF o) (c.targetLabels t) := by
  simp only [evalMetrics, List.getD_eq_getElem?_getD, List.getElem?_map,
    List.getElem?_eq_getElem hi]
  rfl

/-- Parameters at the end of the training batch loop: one optimizer step per
batch, folded left to right. -/
def paramsAfter {P Data Target Output Labels : Type}
    (c : Config P Data Target Output Labels) : P → List (Data × Target) → P
  | p, [] => p
  | p, b :: bs => paramsAfter c (c.optStep p b.1 b.2) bs

theorem trainLoop_params {P Data Target Output Labels : Type}
    (c : Config P Data Target Output Labels) (epoch : ℤ) :
    ∀ (bs : List (Data × Target)) (j : ℕ) (acc : TrainAcc P),
    (trainLoop c epoch j bs acc).st.params = paramsAfter c acc.st.params bs
  | [], _, _ => rfl
  | b :: bs, j, acc => by
    rw [trainLoop, trainLoop_params c epoch bs (j + 1) (trainStep c epoch j acc b)]
    rfl

theorem validLoop_fst {P Data Target Output Labels : Type}
    (c : Config P Data Target Output Labels) (md : Mode) (p : P) :
    ∀ (vb : List (Data × Target)) (t : ℚ × List ℚ),
    (validLoop c md p vb t).1
      = t.1 + (vb.map (fun b => c.lossF (c.modelF md p b.1) b.2)).sum
  | [], _ => by simp [validLoop]
  | b :: vb, t => by
    rw [validLoop, validLoop_fst c md p vb, List.map_cons, List.sum_cons]
    ring

theorem validLoop_snd {P Data Target Output Labels : Type}
    (c : Config P Data Target Output Labels) (md : Mode) (p : P) :
    ∀ (vb : List (Data × Target)) (t : ℚ × List ℚ),
    (validLoop c md p vb t).2
      = (vb.map (fun b => evalMetrics c (c.modelF md p b.1) b.2)).foldl vecAdd t.2
  | [], _ => by simp [validLoop]
  | b :: vb, t => by
    rw [validLoop, validLoop_snd c md p vb, List.map_cons, List.foldl_cons]

/-! Chart lemmas for the training-loss series. -/

theorem trainStep_plt_some {P Data Target Output Labels : Type}
    (c : Config P Data Target Output Labels) (epoch : ℤ) (j : ℕ)
    (acc : TrainAcc P) (b : Data × Target) (pts : List (ℤ × ℚ))
    (hviz : c.visualize = true) (h : acc.st.plt_train_loss = some pts) :
    (trainStep c epoch j acc b).st.plt_train_loss
      = some (pts ++ [((j : ℤ) + (epoch - 1) * (c.data_loader.length : ℤ),
          c.lossF (c.modelF acc.st.mode acc.st.params b.1) b.2)]) := by
  simp [trainStep, hviz, h]

theorem trainStep_plt_none {P Data Target Output Labels : Type}
    (c : Config P Data Target Output Labels) (epoch : ℤ) (j : ℕ)
    (acc : TrainAcc P) (b : Data × Target)
    (hviz : c.visualize = true) (h : acc.st.plt_train_loss = none) :
    (trainStep c epoch j acc b).st.plt_train_loss
      = some [((0 : ℤ), c.lossF (c.modelF acc.st.mode acc.st.params b.1) b.2)] := by
  simp [trainStep, hviz, h]

/-- The x-coordinates 0, 1, ..., n-1 as integers. -/
def natRangeZ (n : ℕ) : List ℤ :=
  List.map (fun m : ℕ => (m : ℤ)) (List.range n)

theorem natRangeZ_succ (n : ℕ) :
    natRangeZ (n + 1) = natRangeZ n ++ [(n : ℤ)] := by
  rw [natRangeZ, natRangeZ, List.range_succ, List.map_append]
  rfl

theorem natRangeZ_pairwise (n : ℕ) :
    List.Pairwise (· < ·) (natRangeZ n) :=
  List.Pairwise.map _ (fun _ _ h => by exact_mod_cast h) (List.pairwise_lt_range n)

theorem trainLoop_chart {P Data Target Output Labels : Type}
    (c : Config P Data Target Output Labels) (epoch : ℤ)
    (hviz : c.visualize = true) :
    ∀ (bs : List (Data × Target)) (j : ℕ) (acc : TrainAcc P) (pts : List (ℤ × ℚ)),
    acc.st.plt_train_loss = some pts →
    pts.map Prod.fst = natRangeZ pts.length →
    ((pts.length : ℤ) = (j : ℤ) + (epoch - 1) * (c.data_loader.length : ℤ)) →
    ∃ pts2, (trainLoop c epoch j bs acc).st.plt_train_loss = some pts2 ∧
      pts2.map Prod.fst = natRangeZ pts2.length ∧
      ((pts2.length : ℤ) = ((j + bs.length : ℕ) : ℤ)
        + (epoch - 1) * (c.data_loader.length : ℤ))
  | [], j, acc, pts, hsome, hmap, hlen =>
    ⟨pts, by rw [trainLoop]; exact hsome, hmap, by simpa using hlen⟩
  | b :: bs, j, acc, pts, hsome, hmap, hlen => by
    rw [trainLoop]
    have hstep := trainStep_plt_some c epoch j acc b pts hviz hsome
    have hx : ((j : ℤ) + (epoch - 1) * (c.data_loader.length : ℤ))
        = (pts.length : ℤ) := hlen.symm
    have hL : (pts ++ [(((j : ℤ) + (epoch - 1) * (c.data_loader.length : ℤ)),
        c.lossF (c.modelF acc.st.mode acc.st.params b.1) b.2)]).length
        = pts.length + 1 := by simp
    have hmap2 : (pts ++ [(((j : ℤ) + (epoch - 1) * (c.data_loader.length : ℤ)),
        c.lossF (c.modelF acc.st.mode acc.st.params b.1) b.2)]).map Prod.fst
        = natRangeZ (pts ++ [(((j : ℤ) + (epoch - 1) * (c.data_loader.length : ℤ)),
            c.lossF (c.modelF acc.st.mode acc.st.params b.1) b.2)]).length := by
      rw [hL, List.map_append, hmap, natRangeZ_succ, List.map_cons, List.map_nil, hx]
    have hlen2 : ((pts ++ [(((j : ℤ) + (epoch - 1) * (c.data_loader.length : ℤ)),
        c.lossF (c.modelF acc.st.mode acc.st.params b.1) b.2)]).length : ℤ)
        = ((j + 1 : ℕ) : ℤ) + (epoch - 1) * (c.data_loader.length : ℤ) := by
      rw [hL]
      push_cast
      linarith
    obtain ⟨pts2, h1, h2, h3⟩ := trainLoop_chart c epoch hviz bs (j + 1)
      (trainStep c epoch j acc b) _ hstep hmap2 hlen2
    refine ⟨pts2, h1, h2, ?_⟩
    rw [h3, List.length_cons]
    push_cast
    ring

/-! Association-list lookup helpers for the Python dict merge. -/

theorem lookup_append_left {α β : Type} [BEq α] :
    ∀ (l1 l2 : List (α × β)) (k : α), (l1.lookup k).isSome →
    (l1 ++ l2).lookup k = l1.lookup k
  | [], _, _, h => by simp [List.lookup] at h
  | (k0, v0) :: l1, l2, k, h => by
    by_cases hk : k == k0
    · simp [List.lookup, hk]
    · rw [List.cons_append]
      simp only [List.lookup, Bool.not_eq_true] at h ⊢
      rw [Bool.of_not_eq_true hk] at h ⊢
      exact lookup_append_left l1 l2 k h

theorem mergeEntry_fst (b : PyDict) (p : String × LogValue) :
    (mergeEntry b p).1 = p.1 := by
  rw [mergeEntry]
  cases b.lookup p.1 <;> rfl

theorem lookup_map_merge (b : PyDict) :
    ∀ (a : PyDict) (k : String), (a.lookup k).isSome → (b.lookup k).isSome →
    ((a.map (mergeEntry b)).lookup k) = b.lookup k
  | [], k, ha, _ => by simp [List.lookup] at ha
  | (k0, v0) :: a, k, ha, hb => by
    by_cases hk : k == k0
    · have hkk : k = k0 := eq_of_beq hk
      subst hkk
      obtain ⟨v, hv⟩ := Option.isSome_iff_exists.mp hb
      simp [List.lookup, List.map_cons, mergeEntry, hv]
    · simp only [List.lookup, Bool.of_not_eq_true hk] at ha
      rcases hme : mergeEntry b (k0, v0) with ⟨k1, v1⟩
      have hk1 : k1 = k0 := by
        have hf := mergeEntry_fst b (k0, v0)
        rw [hme] at hf
        exact hf
      rw [List.map_cons, hme]
      simp only [List.lookup, hk1, Bool.of_not_eq_true hk]
      exact lookup_map_merge b a k ha hb

theorem pyMerge_lookup_right (a b : PyDict) (k : String)
    (ha : (pyLookup a k).isSome) (hb : (pyLookup b k).isSome) :
    pyLookup (pyMerge a b) k = pyLookup b k := by
  have hm := lookup_map_merge b a k ha hb
  rw [pyMerge, pyLookup]
  rw [lookup_append_left _ _ k (by rw [hm]; exact hb)]
  exact hm

/-- Merging the training log with the validation log concatenates them:
their keys are disjoint. -/
theorem pyMerge_logs (x y a b : LogValue) :
    pyMerge [("loss", x), ("metrics", y)] [("val_loss", a), ("val_metrics", b)]
      = [("loss", x), ("metrics", y), ("val_loss", a), ("val_metrics", b)] := rfl

/-! Inversion lemmas: what a successful epoch call determines about the
resulting state and summary dict. -/

/-- Initial accumulator of the training batch loop of _train_epoch:
model.train() has been called, total_loss = 0,
total_metrics = np.zeros(len(metrics)). -/
def trainAcc0 {P Data Target Output Labels : Type}
    (c : Config P Data Target Output Labels) (s : RunnerState P) : TrainAcc P :=
  ⟨{ s with mode := Mode.train }, 0, List.replicate c.metrics.length 0⟩

/-- Accumulator at the end of the training batch loop of _train_epoch. -/
def epochAcc {P Data Target Output Labels : Type}
    (c : Config P Data Target Output Labels) (s : RunnerState P) (epoch : ℤ) :
    TrainAcc P :=
  trainLoop c epoch 0 c.data_loader (trainAcc0 c s)

/-- The training part of the summary dict built by _train_epoch. -/
def trainLog {P Data Target Output Labels : Type}
    (c : Config P Data Target Output Labels) (s : RunnerState P) (epoch : ℤ) :
    PyDict :=
  [("loss", LogValue.num
      ((epochAcc c s epoch).total_loss / (c.data_loader.length : ℚ))),
   ("metrics", LogValue.arr
      ((epochAcc c s epoch).total_metrics.map
        (fun q => q / (c.data_loader.length : ℚ))))]

/-- The mean validation loss of _valid_epoch on batches vb at parameters p. -/
def valMeanLoss {P Data Target Output Labels : Type}
    (c : Config P Data Target Output Labels) (p : P)
    (vb : List (Data × Target)) : ℚ :=
  (validAccum c Mode.eval p vb).1 / (vb.length : ℚ)

theorem validEpoch_inv {P Data Target Output Labels : Type}
    {c : Config P Data Target Output Labels} {vb : List (Data × Target)}
    {s : RunnerState P} {epoch : ℤ} {s1 : RunnerState P} {d : PyDict}
    (h : validEpoch c vb s epoch = .ok (s1, d)) :
    vb ≠ [] ∧ s1.params = s.params ∧ s1.mode = Mode.eval ∧
    s1.plt_train_loss = s.plt_train_loss ∧ s1.logLines = s.logLines ∧
    d = [("val_loss", LogValue.num (valMeanLoss c s.params vb)),
         ("val_metrics", LogValue.arr
            ((validAccum c Mode.eval s.params vb).2.map
              (fun q => q / (vb.length : ℚ))))] ∧
    (c.visualize = true → s.plt_val_loss = none →
      s1.plt_val_loss = some [((0 : ℤ), valMeanLoss c s.params vb)]) ∧
    (c.visualize = true → ∀ pts, s.plt_val_loss = some pts →
      s1.plt_val_loss = some (pts ++ [(epoch - 1, valMeanLoss c s.params vb)])) ∧
    (c.visualize = false → s1.plt_val_loss = s.plt_val_loss) := by
  rw [validEpoch] at h
  by_cases h0 : vb.length = 0
  · rw [if_pos h0] at h
    exact absurd h (by simp)
  · rw [if_neg h0] at h
    have hne : vb ≠ [] := fun hnil => h0 (by rw [hnil]; rfl)
    rw [Except.ok.injEq, Prod.mk.injEq] at h
    obtain ⟨hs, hd⟩ := h
    subst hs
    subst hd
    refine ⟨hne, ?_, ?_, ?_, ?_, ?_, ?_, ?_, ?_⟩
    · by_cases hv : c.visualize <;> cases hp : s.plt_val_loss <;> simp [hv, hp]
    · by_cases hv : c.visualize <;> cases hp : s.plt_val_loss <;> simp [hv, hp]
    · by_cases hv : c.visualize <;> cases hp : s.plt_val_loss <;> simp [hv, hp]
    · by_cases hv : c.visualize <;> cases hp : s.plt_val_loss <;> simp [hv, hp]
    · rfl
    · intro hv hp
      simp [hv, hp, valMeanLoss]
    · intro hv pts hp
      simp [hv, hp, valMeanLoss]
    · intro hv
      simp [hv]

theorem trainEpoch_inv {P Data Target Output Labels : Type}
    {c : Config P Data Target Output Labels} {s : RunnerState P} {epoch : ℤ}
    {s1 : RunnerState P} {d : PyDict}
    (h : trainEpoch c s epoch = .ok (s1, d)) :
    c.data_loader ≠ [] ∧
    (c.valid_data_loader = none →
      s1 = (epochAcc c s epoch).st ∧ d = trainLog c s epoch) ∧
    (∀ vb, c.valid_data_loader = some vb →
      ∃ vlog, validEpoch c vb (epochAcc c s epoch).st epoch = .ok (s1, vlog) ∧
        d = pyMerge (trainLog c s epoch) vlog) := by
  rw [trainEpoch] at h
  by_cases h0 : c.data_loader.length = 0
  · rw [if_pos h0] at h
    exact absurd h (by simp)
  · rw [if_neg h0] at h
    have hne : c.data_loader ≠ [] := fun hnil => h0 (by rw [hnil]; rfl)
    refine ⟨hne, ?_, ?_⟩
    · intro hvd
      rw [hvd] at h
      change Except.ok ((epochAcc c s epoch).st, trainLog c s epoch)
          = Except.ok (s1, d) at h
      rw [Except.ok.injEq, Prod.mk.injEq] at h
      exact ⟨h.1.symm, h.2.symm⟩
    · intro vb hvd
      rw [hvd] at h
      change mergeValid c vb (epochAcc c s epoch).st epoch (trainLog c s epoch)
          = Except.ok (s1, d) at h
      unfold mergeValid at h
      rcases hve : validEpoch c vb (epochAcc c s epoch).st epoch with e | ⟨s2, vlog⟩
      · rw [hve] at h
        exact absurd h (by simp)
      · rw [hve] at h
        change Except.ok (s2, pyMerge (trainLog c s epoch) vlog)
            = Except.ok (s1, d) at h
        rw [Except.ok.injEq, Prod.mk.injEq] at h
        exact ⟨vlog, by rw [h.1], h.2.symm⟩

/-! Dict lookup computations on the summary shapes produced by the runner. -/

theorem trainLog_def {P Data Target Output Labels : Type}
    (c : Config P Data Target Output Labels) (s : RunnerState P) (epoch : ℤ) :
    trainLog c s epoch
      = [("loss", LogValue.num
            ((epochAcc c s epoch).total_loss / (c.data_loader.length : ℚ))),
         ("metrics", LogValue.arr
            ((epochAcc c s epoch).total_metrics.map
              (fun q => q / (c.data_loader.length : ℚ))))] := rfl

theorem pyLookup_trainLog_loss {P Data Target Output Labels : Type}
    (c : Config P Data Target Output Labels) (s : RunnerState P) (epoch : ℤ) :
    pyLookup (trainLog c s epoch) "loss"
      = some (LogValue.num
          ((epochAcc c s epoch).total_loss / (c.data_loader.length : ℚ))) := rfl

theorem pyLookup_trainLog_metrics {P Data Target Output Labels : Type}
    (c : Config P Data Target Output Labels) (s : RunnerState P) (epoch : ℤ) :
    pyLookup (trainLog c s epoch) "metrics"
      = some (LogValue.arr
          ((epochAcc c s epoch).total_metrics.map
            (fun q => q / (c.data_loader.length : ℚ)))) := rfl

theorem lookup4_loss (x y a b : LogValue) :
    pyLookup [("loss", x), ("metrics", y), ("val_loss", a), ("val_metrics", b)]
      "loss" = some x := rfl

theorem lookup4_metrics (x y a b : LogValue) :
    pyLookup [("loss", x), ("metrics", y), ("val_loss", a), ("val_metrics", b)]
      "metrics" = some y := rfl

theorem lookup4_val_metrics (x y a b : LogValue) :
    pyLookup [("loss", x), ("metrics", y), ("val_loss", a), ("val_metrics", b)]
      "val_metrics" = some b := rfl

theorem lookup2_val_loss (a b : LogValue) :
    pyLookup [("val_loss", a), ("val_metrics", b)] "val_loss" = some a := rfl

/-! Concrete configurations used to instantiate the claims. The model,
optimizer and metric collaborators are inert; the loss function returns the
target value, so the batch losses are chosen directly by the data. -/

/-- Scenario configuration from the spec: three batches whose scalar losses
are 1, 2, 3, no metrics configured, no validation source, no visualization. -/
def cEx1 : Config Unit Unit ℚ ℚ Unit :=
  { modelF := fun _ _ _ => 0
    lossF := fun _ t => t
    argmaxF := fun _ => ()
    targetLabels := fun _ => ()
    metrics := []
    optStep := fun p _ _ => p
    data_loader := [((), 1), ((), 2), ((), 3)]
    valid_data_loader := none
    batch_size := 1
    verbosity := 0
    visualize := false
    with_cuda := false }

/-- Boundary configuration: a training batch source yielding zero batches. -/
def cEmpty : Config Unit Unit ℚ ℚ Unit :=
  { cEx1 with data_loader := [] }

/-- Boundary configuration: one training batch, but a validation batch
source yielding zero batches. -/
def cEmptyVal : Config Unit Unit ℚ ℚ Unit :=
  { cEx1 with data_loader := [((), 1)], valid_data_loader := some [] }

/-- Claim C1: for every epoch call that returns a summary, the loss field is
the arithmetic mean of the per-batch scalar losses; in particular, in the
scenario of three batches with losses 1, 2, 3 and no metrics configured,
_train_epoch returns loss = 2 and metrics = []. -/
theorem claim1_mean_loss :
    (∀ {P Data Target Output Labels : Type}
      (c : Config P Data Target Output Labels) (s : RunnerState P) (epoch : ℤ)
      (s1 : RunnerState P) (d : PyDict), trainEpoch c s epoch = .ok (s1, d) →
      pyLookup d "loss" = some (LogValue.num
        ((batchLosses c Mode.train s.params c.data_loader).sum
          / (c.data_loader.length : ℚ)))) ∧
    (∃ s1, trainEpoch cEx1 (initState ()) 1
      = .ok (s1, [("loss", LogValue.num 2), ("metrics", LogValue.arr [])])) := by
  constructor
  · intro P Data Target Output Labels c s epoch s1 d h
    obtain ⟨hne, hnone, hsome⟩ := trainEpoch_inv h
    have hloss : (epochAcc c s epoch).total_loss
        = (batchLosses c Mode.train s.params c.data_loader).sum := by
      rw [epochAcc, trainLoop_total_loss]
      show (0 : ℚ) + (batchLosses c (trainAcc0 c s).st.mode
          (trainAcc0 c s).st.params c.data_loader).sum = _
      rw [zero_add]
      rfl
    rcases hvd : c.valid_data_loader with _ | vb
    · obtain ⟨-, hd⟩ := hnone hvd
      rw [hd, pyLookup_trainLog_loss, hloss]
    · obtain ⟨vlog, hve, hd⟩ := hsome vb hvd
      obtain ⟨-, -, -, -, -, hvlog, -, -, -⟩ := validEpoch_inv hve
      rw [hd, hvlog, trainLog_def, pyMerge_logs, lookup4_loss, hloss]
  · refine ⟨⟨(), Mode.train, none, none, []⟩, ?_⟩
    simp only [trainEpoch, trainLoop, trainStep, initState, cEx1, vecAdd,
      evalMetrics, Config.log_step]
    norm_num

/-- Witness for claim C1: the general mean-loss statement instantiated at
the concrete three-batch scenario. -/
theorem claim1_witness :
    pyLookup [("loss", LogValue.num 2), ("metrics", LogValue.arr [])] "loss"
      = some (LogValue.num
          ((batchLosses cEx1 Mode.train () cEx1.data_loader).sum
            / (cEx1.data_loader.length : ℚ))) :=
  claim1_mean_loss.1 cEx1 (initState ()) 1 ⟨(), Mode.train, none, none, []⟩
    [("loss", LogValue.num 2), ("metrics", LogValue.arr [])]
    (by simp only [trainEpoch, trainLoop, trainStep, initState, cEx1, vecAdd,
          evalMetrics, Config.log_step]
        norm_num)

/-- Claim C2 counterexample: with a training source of zero batches, the
epoch call fails with the unguarded division-by-zero error, not with an
explicit empty-data-source error. -/
theorem claim2_counterexample :
    trainEpoch cEmpty (initState ()) 1 = .error TrainError.zeroDivision ∧
    trainEpoch cEmpty (initState ()) 1 ≠ .error TrainError.emptyDataSource := by
  refine ⟨rfl, ?_⟩
  intro hcontra
  rw [show trainEpoch cEmpty (initState ()) 1 = .error TrainError.zeroDivision
    from rfl] at hcontra
  exact absurd hcontra (by simp)

/-- Claim C2 (amended): when the training or the validation batch source
yields zero batches, the epoch call fails with the unguarded
division-by-zero error of total / len(source); no EmptyDataSourceError
exists in the code. -/
theorem claim2_empty_source_divides_by_zero {P Data Target Output Labels : Type}
    (c : Config P Data Target Output Labels) (s : RunnerState P) (epoch : ℤ) :
    (c.data_loader = [] →
      trainEpoch c s epoch = .error TrainError.zeroDivision) ∧
    (c.valid_data_loader = some [] →
      trainEpoch c s epoch = .error TrainError.zeroDivision) := by
  constructor
  · intro h
    rw [trainEpoch, h]
    rfl
  · intro h
    rw [trainEpoch, h]
    by_cases h0 : c.data_loader.length = 0
    · rw [if_pos h0]
    · rw [if_neg h0]
      rfl

/-- Witness for claim C2 (amended): a configured validation source with zero
batches makes the epoch call fail with the division-by-zero error. -/
theorem claim2_witness :
    trainEpoch cEmptyVal (initState ()) 1 = .error TrainError.zeroDivision :=
  (claim2_empty_source_divides_by_zero cEmptyVal (initState ()) 1).2 rfl

/-- Validation configuration: two training batches with losses 1, 2, a
validation source with losses 4, 6, one metric that always returns 1,
visualization enabled. -/
def cVal : Config Unit Unit ℚ ℚ Unit :=
  { cEx1 with
    data_loader := [((), 1), ((), 2)]
    valid_data_loader := some [((), 4), ((), 6)]
    metrics := [fun _ _ => 1]
    visualize := true }

/-- Claim C5: _valid_epoch performs no optimizer step and never mutates the
model parameters; running it twice in a row with no training in between
(from any runner state, at any epoch indices) returns the identical summary
dict, hence identical val_loss and val_metrics. -/
theorem claim5_validate_pure {P Data Target Output Labels : Type}
    (c : Config P Data Target Output Labels) (vb : List (Data × Target))
    (s : RunnerState P) (e1 e2 : ℤ) (s1 s2 : RunnerState P) (d1 d2 : PyDict)
    (h1 : validEpoch c vb s e1 = .ok (s1, d1))
    (h2 : validEpoch c vb s1 e2 = .ok (s2, d2)) :
    s1.params = s.params ∧ d2 = d1 := by
  obtain ⟨-, hp1, -, -, -, hd1, -, -, -⟩ := validEpoch_inv h1
  obtain ⟨-, hp2, -, -, -, hd2, -, -, -⟩ := validEpoch_inv h2
  exact ⟨hp1, by rw [hd1, hd2, hp1]⟩

/-- Witness for claim C5: two consecutive validation epochs on the concrete
validation configuration leave the parameters unchanged and return the same
summary. -/
theorem claim5_witness :
    (⟨(), Mode.eval, none, some [((0 : ℤ), (5 : ℚ))], []⟩
        : RunnerState Unit).params = (initState ()).params ∧
    ([("val_loss", LogValue.num 5), ("val_metrics", LogValue.arr [1])] : PyDict)
      = [("val_loss", LogValue.num 5), ("val_metrics", LogValue.arr [1])] :=
  claim5_validate_pure cVal [((), 4), ((), 6)] (initState ()) 1 2
    ⟨(), Mode.eval, none, some [((0 : ℤ), (5 : ℚ))], []⟩
    ⟨(), Mode.eval, none, some [((0 : ℤ), (5 : ℚ)), ((1 : ℤ), (5 : ℚ))], []⟩
    [("val_loss", LogValue.num 5), ("val_metrics", LogValue.arr [1])]
    [("val_loss", LogValue.num 5), ("val_metrics", LogValue.arr [1])]
    (by simp only [validEpoch, validAccum, validLoop, vecAdd, evalMetrics,
          cVal, cEx1, initState]
        norm_num)
    (by simp only [validEpoch, validAccum, validLoop, vecAdd, evalMetrics,
          cVal, cEx1]
        norm_num)

/-- Claim C7 counterexample: with visualization enabled, a series-creating
_valid_epoch call at epoch index 5 (a fresh runner, as after a resume) sends
exactly one point to the validation-loss chart, but that point is (0, 5) —
the sink's default x = 0, because the creating call passes no x — and not
(epoch − 1, mean) = (4, 5) as the claim states. -/
theorem claim7_counterexample :
    validEpoch cVal [((), 4), ((), 6)] (initState ()) 5
      = .ok (⟨(), Mode.eval, none, some [((0 : ℤ), (5 : ℚ))], []⟩,
             [("val_loss", LogValue.num 5), ("val_metrics", LogValue.arr [1])]) ∧
    ((0 : ℤ), (5 : ℚ)) ≠ ((5 : ℤ) - 1, (5 : ℚ)) := by
  constructor
  · simp only [validEpoch, validAccum, validLoop, vecAdd, evalMetrics,
      cVal, cEx1, initState]
    norm_num
  · intro hcontra
    rw [Prod.mk.injEq] at hcontra
    norm_num at hcontra

/-- Claim C7 (amended): with visualization enabled, every _valid_epoch call
sends exactly one point to the validation-loss chart, with y equal to the
epoch's mean validation loss (the summary's val_loss). A call that appends
to an existing series places its point at x = epoch - 1; the series-creating
first call passes no x, so its point carries the chart sink's default x = 0
(which coincides with epoch - 1 only when that first call is at epoch 1). -/
theorem claim7_val_chart_amended {P Data Target Output Labels : Type}
    (c : Config P Data Target Output Labels) (vb : List (Data × Target))
    (s : RunnerState P) (epoch : ℤ) (s1 : RunnerState P) (d : PyDict)
    (hviz : c.visualize = true)
    (h : validEpoch c vb s epoch = .ok (s1, d)) :
    pyLookup d "val_loss" = some (LogValue.num (valMeanLoss c s.params vb)) ∧
    (∀ pts, s.plt_val_loss = some pts →
      s1.plt_val_loss = some (pts ++ [(epoch - 1, valMeanLoss c s.params vb)])) ∧
    (s.plt_val_loss = none →
      s1.plt_val_loss = some [((0 : ℤ), valMeanLoss c s.params vb)]) := by
  obtain ⟨-, -, -, -, -, hd, hnone, hsome, -⟩ := validEpoch_inv h
  exact ⟨by rw [hd, lookup2_val_loss], hsome hviz, hnone hviz⟩

/-- Witness for claim C7 (amended): a validation epoch at epoch index 2 on a
runner whose series already holds the point (0, 5) appends exactly one point
at x = 2 - 1. -/
theorem claim7_witness :
    pyLookup [("val_loss", LogValue.num 5), ("val_metrics", LogValue.arr [1])]
        "val_loss"
      = some (LogValue.num (valMeanLoss cVal () [((), 4), ((), 6)])) ∧
    (∀ pts, (some [((0 : ℤ), (5 : ℚ))] : Option (List (ℤ × ℚ))) = some pts →
      (some [((0 : ℤ), (5 : ℚ)), ((1 : ℤ), (5 : ℚ))] : Option (List (ℤ × ℚ)))
        = some (pts ++ [((2 : ℤ) - 1, valMeanLoss cVal () [((), 4), ((), 6)])])) ∧
    ((some [((0 : ℤ), (5 : ℚ))] : Option (List (ℤ × ℚ))) = none →
      (some [((0 : ℤ), (5 : ℚ)), ((1 : ℤ), (5 : ℚ))] : Option (List (ℤ × ℚ)))
        = some [((0 : ℤ), valMeanLoss cVal () [((), 4), ((), 6)])]) :=
  claim7_val_chart_amended cVal [((), 4), ((), 6)]
    ⟨(), Mode.eval, none, some [((0 : ℤ), (5 : ℚ))], []⟩ 2
    ⟨(), Mode.eval, none, some [((0 : ℤ), (5 : ℚ)), ((1 : ℤ), (5 : ℚ))], []⟩
    [("val_loss", LogValue.num 5), ("val_metrics", LogValue.arr [1])]
    rfl
    (by simp only [validEpoch, validAccum, validLoop, vecAdd, evalMetrics,
          cVal, cEx1]
        norm_num)

/-- Progress-line configuration: batch_size 4, so the precomputed cadence
floor(sqrt(4)) = 2, at the detailed verbosity level 2. -/
def cLog : Config Unit Unit ℚ ℚ Unit :=
  { cEx1 with batch_size := 4, verbosity := 2 }

/-- Claim C9: over one training epoch, the emitted progress lines are
exactly those described by specLines — one line for batch j precisely when
the verbosity is at least 2 and j is a multiple of the cadence
floor(sqrt(batch_size)) precomputed at construction (log_step), the line
carrying the epoch number, examples processed so far, total examples,
percentage complete and the current batch loss. The hypothesis
0 < batch_size reflects that Python's modulo by the cadence requires a
nonzero cadence. -/
theorem claim9_progress_line_cadence {P Data Target Output Labels : Type}
    (c : Config P Data Target Output Labels) (s : RunnerState P) (epoch : ℤ)
    (s1 : RunnerState P) (d : PyDict)
    (hbs : 0 < c.batch_size)
    (h : trainEpoch c s epoch = .ok (s1, d)) :
    c.log_step = Nat.sqrt c.batch_size ∧
    s1.logLines
      = s.logLines ++ specLines c epoch Mode.train 0 s.params c.data_loader := by
  obtain ⟨hne, hnone, hsome⟩ := trainEpoch_inv h
  have hlines : (epochAcc c s epoch).st.logLines
      = s.logLines ++ specLines c epoch Mode.train 0 s.params c.data_loader := by
    rw [epochAcc, trainLoop_logLines c epoch hbs]
    rfl
  refine ⟨rfl, ?_⟩
  rcases hvd : c.valid_data_loader with _ | vb
  · obtain ⟨hs1, -⟩ := hnone hvd
    rw [hs1, hlines]
  · obtain ⟨vlog, hve, -⟩ := hsome vb hvd
    obtain ⟨-, -, -, -, hll, -, -, -, -⟩ := validEpoch_inv hve
    rw [hll, hlines]

/-- Witness for claim C9: on the progress-line configuration, the epoch
emits lines for batches 0 and 2 exactly as specLines describes. -/
theorem claim9_witness :
    cLog.log_step = Nat.sqrt cLog.batch_size ∧
    (⟨(), Mode.train, none, none,
        [⟨1, 0, 12, 0, 1⟩, ⟨1, 8, 12, 200 / 3, 3⟩]⟩ : RunnerState Unit).logLines
      = (initState ()).logLines
        ++ specLines cLog 1 Mode.train 0 (initState ()).params cLog.data_loader :=
  claim9_progress_line_cadence cLog (initState ()) 1
    ⟨(), Mode.train, none, none, [⟨1, 0, 12, 0, 1⟩, ⟨1, 8, 12, 200 / 3, 3⟩]⟩
    [("loss", LogValue.num 2), ("metrics", LogValue.arr [])]
    (by simp [cLog, cEx1])
    (by simp only [trainEpoch, trainLoop, trainStep, initState, cLog, cEx1,
          vecAdd, evalMetrics, Config.log_step]
        norm_num)

/-- Claim C10: when a validation source is configured, the returned summary
is the Python dict merge of the validation log over the training log, and
that merge has no collision check: any key present in both dicts takes its
value from the right (validation) dict. -/
theorem claim10_merge_validation_wins {P Data Target Output Labels : Type}
    (c : Config P Data Target Output Labels) (s : RunnerState P) (epoch : ℤ)
    (vb : List (Data × Target)) (s1 : RunnerState P) (d : PyDict)
    (hvd : c.valid_data_loader = some vb)
    (h : trainEpoch c s epoch = .ok (s1, d)) :
    (∃ vlog, validEpoch c vb (epochAcc c s epoch).st epoch = .ok (s1, vlog) ∧
      d = pyMerge (trainLog c s epoch) vlog) ∧
    (∀ (a b : PyDict) (k : String), (pyLookup a k).isSome →
      (pyLookup b k).isSome → pyLookup (pyMerge a b) k = pyLookup b k) := by
  obtain ⟨-, -, hsome⟩ := trainEpoch_inv h
  exact ⟨hsome vb hvd, pyMerge_lookup_right⟩

/-- Witness for claim C10: the concrete validation configuration produces
its summary as the merge of the validation log over the training log. -/
theorem claim10_witness :
    (∃ vlog, validEpoch cVal [((), 4), ((), 6)]
        (epochAcc cVal (initState ()) 1).st 1
        = .ok (⟨(), Mode.eval, some [((0 : ℤ), (1 : ℚ)), ((1 : ℤ), (2 : ℚ))],
            some [((0 : ℤ), (5 : ℚ))], []⟩, vlog) ∧
      ([("loss", LogValue.num (3 / 2)), ("metrics", LogValue.arr [1]),
        ("val_loss", LogValue.num 5), ("val_metrics", LogValue.arr [1])] : PyDict)
        = pyMerge (trainLog cVal (initState ()) 1) vlog) ∧
    (∀ (a b : PyDict) (k : String), (pyLookup a k).isSome →
      (pyLookup b k).isSome → pyLookup (pyMerge a b) k = pyLookup b k) :=
  claim10_merge_validation_wins cVal (initState ()) 1 [((), 4), ((), 6)]
    ⟨(), Mode.eval, some [((0 : ℤ), (1 : ℚ)), ((1 : ℤ), (2 : ℚ))],
      some [((0 : ℤ), (5 : ℚ))], []⟩
    [("loss", LogValue.num (3 / 2)), ("metrics", LogValue.arr [1]),
     ("val_loss", LogValue.num 5), ("val_metrics", LogValue.arr [1])]
    rfl
    (by simp only [trainEpoch, trainLoop, trainStep, mergeValid, validEpoch,
          validAccum, validLoop, vecAdd, evalMetrics, pyMerge, initState,
          cVal, cEx1, Config.log_step]
        norm_num
        simp [mergeEntry, List.lookup])

/-! Slot-wise characterisation of the accumulated metric vectors. -/

theorem batchMetricVecs_length_mem {P Data Target Output Labels : Type}
    (c : Config P Data Target Output Labels) (md : Mode) :
    ∀ (bs : List (Data × Target)) (p : P) (v : List ℚ),
    v ∈ batchMetricVecs c md p bs → v.length = c.metrics.length
  | [], _, _, hv => by simp [batchMetricVecs] at hv
  | b :: bs, p, v, hv => by
    rw [batchMetricVecs] at hv
    rcases List.mem_cons.mp hv with h1 | h2
    · rw [h1]
      exact evalMetrics_length c _ _
    · exact batchMetricVecs_length_mem c md bs _ v h2

theorem getD_replicate_zero (n i : ℕ) :
    (List.replicate n (0 : ℚ)).getD i 0 = 0 := by
  simp only [List.getD_eq_getElem?_getD, List.getElem?_replicate]
  split <;> rfl

theorem getD_map_div (l : List ℚ) (B : ℚ) (i : ℕ) (hi : i < l.length) :
    (l.map (fun q => q / B)).getD i 0 = l.getD i 0 / B := by
  simp only [List.getD_eq_getElem?_getD, List.getElem?_map,
    List.getElem?_eq_getElem hi]
  rfl

theorem batchMetricVecs_map_getD {P Data Target Output Labels : Type}
    (c : Config P Data Target Output Labels) (md : Mode) (i : ℕ)
    (hi : i < c.metrics.length) :
    ∀ (bs : List (Data × Target)) (p : P),
    (batchMetricVecs c md p bs).map (fun v => v.getD i 0)
      = batchMetricSeries c (c.metrics.get ⟨i, hi⟩) md p bs
  | [], _ => rfl
  | b :: bs, p => by
    rw [batchMetricVecs, batchMetricSeries, List.map_cons,
      evalMetrics_getD c _ _ i hi,
      batchMetricVecs_map_getD c md i hi bs (c.optStep p b.1 b.2)]
    rfl

theorem epochAcc_total_metrics {P Data Target Output Labels : Type}
    (c : Config P Data Target Output Labels) (s : RunnerState P) (epoch : ℤ) :
    (epochAcc c s epoch).total_metrics
      = (batchMetricVecs c Mode.train s.params c.data_loader).foldl vecAdd
          (List.replicate c.metrics.length 0) := by
  rw [epochAcc, trainLoop_total_metrics]
  rfl

theorem epochAcc_total_metrics_length {P Data Target Output Labels : Type}
    (c : Config P Data Target Output Labels) (s : RunnerState P) (epoch : ℤ) :
    (epochAcc c s epoch).total_metrics.length = c.metrics.length := by
  rw [epochAcc_total_metrics, foldl_vecAdd_length, List.length_replicate]
  intro v hv
  rw [List.length_replicate]
  exact batchMetricVecs_length_mem c Mode.train c.data_loader s.params v hv

theorem epochAcc_total_metrics_getD {P Data Target Output Labels : Type}
    (c : Config P Data Target Output Labels) (s : RunnerState P) (epoch : ℤ)
    (i : ℕ) (hi : i < c.metrics.length) :
    (epochAcc c s epoch).total_metrics.getD i 0
      = (batchMetricSeries c (c.metrics.get ⟨i, hi⟩) Mode.train s.params
          c.data_loader).sum := by
  rw [epochAcc_total_metrics,
    foldl_vecAdd_getD _ _ i
      (fun v hv => by
        rw [List.length_replicate]
        exact batchMetricVecs_length_mem c Mode.train c.data_loader s.params v hv)
      (by rw [List.length_replicate]; exact hi),
    getD_replicate_zero, batchMetricVecs_map_getD c Mode.train i hi, zero_add]

theorem validAccum_snd_length {P Data Target Output Labels : Type}
    (c : Config P Data Target Output Labels) (p : P)
    (vb : List (Data × Target)) :
    (validAccum c Mode.eval p vb).2.length = c.metrics.length := by
  rw [validAccum, validLoop_snd, foldl_vecAdd_length, List.length_replicate]
  intro v hv
  obtain ⟨b, -, rfl⟩ := List.mem_map.mp hv
  rw [List.length_replicate]
  exact evalMetrics_length c _ _

theorem validAccum_snd_getD {P Data Target Output Labels : Type}
    (c : Config P Data Target Output Labels) (p : P)
    (vb : List (Data × Target)) (i : ℕ) (hi : i < c.metrics.length) :
    (validAccum c Mode.eval p vb).2.getD i 0
      = (vb.map (metricOnBatch c (c.metrics.get ⟨i, hi⟩) Mode.eval p)).sum := by
  rw [validAccum, validLoop_snd,
    foldl_vecAdd_getD _ _ i
      (fun v hv => by
        obtain ⟨b, -, rfl⟩ := List.mem_map.mp hv
        rw [List.length_replicate]
        exact evalMetrics_length c _ _)
      (by rw [List.length_replicate]; exact hi),
    getD_replicate_zero, zero_add, List.map_map]
  have hfun : ((fun v : List ℚ => v.getD i 0)
        ∘ fun b : Data × Target => evalMetrics c (c.modelF Mode.eval p b.1) b.2)
      = metricOnBatch c (c.metrics.get ⟨i, hi⟩) Mode.eval p :=
    funext fun b => evalMetrics_getD c (c.modelF Mode.eval p b.1) b.2 i hi
  rw [hfun]

theorem epochAcc_params {P Data Target Output Labels : Type}
    (c : Config P Data Target Output Labels) (s : RunnerState P) (epoch : ℤ) :
    (epochAcc c s epoch).st.params = paramsAfter c s.params c.data_loader := by
  rw [epochAcc, trainLoop_params]
  rfl

/-- Claim C4: in every returned summary, the metrics sequence has length
equal to the number of configured metric functions, and slot i is the mean
over all batches of the i-th metric function (in registration order); the
same holds for val_metrics when a validation source is configured, at the
post-epoch parameters. -/
theorem claim4_metric_means {P Data Target Output Labels : Type}
    (c : Config P Data Target Output Labels) (s : RunnerState P) (epoch : ℤ)
    (s1 : RunnerState P) (d : PyDict)
    (h : trainEpoch c s epoch = .ok (s1, d)) :
    (∃ ms, pyLookup d "metrics" = some (LogValue.arr ms) ∧
      ms.length = c.metrics.length ∧
      ∀ (i : ℕ) (hi : i < c.metrics.length),
        ms.getD i 0 = (batchMetricSeries c (c.metrics.get ⟨i, hi⟩) Mode.train
            s.params c.data_loader).sum / (c.data_loader.length : ℚ)) ∧
    (∀ vb, c.valid_data_loader = some vb →
      ∃ vms, pyLookup d "val_metrics" = some (LogValue.arr vms) ∧
        vms.length = c.metrics.length ∧
        ∀ (i : ℕ) (hi : i < c.metrics.length),
          vms.getD i 0 = (vb.map (metricOnBatch c (c.metrics.get ⟨i, hi⟩)
              Mode.eval (paramsAfter c s.params c.data_loader))).sum
            / (vb.length : ℚ)) := by
  obtain ⟨hne, hnone, hsome⟩ := trainEpoch_inv h
  constructor
  · have hlk : pyLookup d "metrics"
        = some (LogValue.arr ((epochAcc c s epoch).total_metrics.map
            (fun q => q / (c.data_loader.length : ℚ)))) := by
      rcases hvd : c.valid_data_loader with _ | vb
      · obtain ⟨-, hd⟩ := hnone hvd
        rw [hd, pyLookup_trainLog_metrics]
      · obtain ⟨vlog, hve, hd⟩ := hsome vb hvd
        obtain ⟨-, -, -, -, -, hvlog, -, -, -⟩ := validEpoch_inv hve
        rw [hd, hvlog, trainLog_def, pyMerge_logs, lookup4_metrics]
    refine ⟨_, hlk, ?_, ?_⟩
    · rw [List.length_map, epochAcc_total_metrics_length]
    · intro i hi
      rw [getD_map_div _ _ i (by rw [epochAcc_total_metrics_length]; exact hi),
        epochAcc_total_metrics_getD c s epoch i hi]
  · intro vb hvd
    obtain ⟨vlog, hve, hd⟩ := hsome vb hvd
    obtain ⟨-, -, -, -, -, hvlog, -, -, -⟩ := validEpoch_inv hve
    have hlk : pyLookup d "val_metrics"
        = some (LogValue.arr ((validAccum c Mode.eval
            (epochAcc c s epoch).st.params vb).2.map
              (fun q => q / (vb.length : ℚ)))) := by
      rw [hd, hvlog, trainLog_def, pyMerge_logs, lookup4_val_metrics]
    refine ⟨_, hlk, ?_, ?_⟩
    · rw [List.length_map, validAccum_snd_length]
    · intro i hi
      rw [getD_map_div _ _ i (by rw [validAccum_snd_length]; exact hi),
        validAccum_snd_getD c _ vb i hi, epochAcc_params]

/-- Witness for claim C4: the concrete validation configuration with one
always-1 metric. -/
theorem claim4_witness :
    (∃ ms, pyLookup
        ([("loss", LogValue.num (3 / 2)), ("metrics", LogValue.arr [1]),
          ("val_loss", LogValue.num 5), ("val_metrics", LogValue.arr [1])]
          : PyDict) "metrics" = some (LogValue.arr ms) ∧
      ms.length = cVal.metrics.length ∧
      ∀ (i : ℕ) (hi : i < cVal.metrics.length),
        ms.getD i 0 = (batchMetricSeries cVal (cVal.metrics.get ⟨i, hi⟩)
            Mode.train (initState ()).params cVal.data_loader).sum
          / (cVal.data_loader.length : ℚ)) ∧
    (∀ vb, cVal.valid_data_loader = some vb →
      ∃ vms, pyLookup
          ([("loss", LogValue.num (3 / 2)), ("metrics", LogValue.arr [1]),
            ("val_loss", LogValue.num 5), ("val_metrics", LogValue.arr [1])]
            : PyDict) "val_metrics" = some (LogValue.arr vms) ∧
        vms.length = cVal.metrics.length ∧
        ∀ (i : ℕ) (hi : i < cVal.metrics.length),
          vms.getD i 0 = (vb.map (metricOnBatch cVal (cVal.metrics.get ⟨i, hi⟩)
              Mode.eval (paramsAfter cVal (initState ()).params
                cVal.data_loader))).sum / (vb.length : ℚ)) :=
  claim4_metric_means cVal (initState ()) 1
    ⟨(), Mode.eval, some [((0 : ℤ), (1 : ℚ)), ((1 : ℤ), (2 : ℚ))],
      some [((0 : ℤ), (5 : ℚ))], []⟩
    [("loss", LogValue.num (3 / 2)), ("metrics", LogValue.arr [1]),
     ("val_loss", LogValue.num 5), ("val_metrics", LogValue.arr [1])]
    (by simp only [trainEpoch, trainLoop, trainStep, mergeValid, validEpoch,
          validAccum, validLoop, vecAdd, evalMetrics, pyMerge, initState,
          cVal, cEx1, Config.log_step]
        norm_num
        simp [mergeEntry, List.lookup])

/-! Epoch-level chart lemmas: one _train_epoch call extends the
training-loss series by one point per batch, with x-coordinates continuing
the global range 0, 1, 2, .... -/

theorem trainEpoch_chart_cont {P Data Target Output Labels : Type}
    {c : Config P Data Target Output Labels} {s : RunnerState P} {e : ℤ}
    {s1 : RunnerState P} {d : PyDict}
    (hviz : c.visualize = true)
    (hok : trainEpoch c s e = .ok (s1, d))
    (pts : List (ℤ × ℚ))
    (hpts : s.plt_train_loss = some pts)
    (hmap : pts.map Prod.fst = natRangeZ pts.length)
    (hlen : (pts.length : ℤ) = (e - 1) * (c.data_loader.length : ℤ)) :
    ∃ pts2, s1.plt_train_loss = some pts2 ∧
      pts2.map Prod.fst = natRangeZ pts2.length ∧
      ((pts2.length : ℤ) = e * (c.data_loader.length : ℤ)) := by
  obtain ⟨hne, hnone, hsome⟩ := trainEpoch_inv hok
  have h0 : ((pts.length : ℤ))
      = ((0 : ℕ) : ℤ) + (e - 1) * (c.data_loader.length : ℤ) := by
    rw [hlen]
    push_cast
    ring
  obtain ⟨pts2, hp2, hm2, hl2⟩ := trainLoop_chart c e hviz c.data_loader 0
    (trainAcc0 c s) pts hpts hmap h0
  have hfin : ((pts2.length : ℤ)) = e * (c.data_loader.length : ℤ) := by
    rw [hl2]
    push_cast
    ring
  rcases hvd : c.valid_data_loader with _ | vb
  · obtain ⟨hs1, -⟩ := hnone hvd
    exact ⟨pts2, by rw [hs1]; exact hp2, hm2, hfin⟩
  · obtain ⟨vlog, hve, -⟩ := hsome vb hvd
    obtain ⟨-, -, -, hptr, -, -, -, -, -⟩ := validEpoch_inv hve
    exact ⟨pts2, by rw [hptr]; exact hp2, hm2, hfin⟩

theorem trainEpoch_chart_first {P Data Target Output Labels : Type}
    {c : Config P Data Target Output Labels} {s : RunnerState P} {e : ℤ}
    {s1 : RunnerState P} {d : PyDict}
    (hviz : c.visualize = true)
    (hok : trainEpoch c s e = .ok (s1, d))
    (hpts : s.plt_train_loss = none)
    (he : e = 1) :
    ∃ pts2, s1.plt_train_loss = some pts2 ∧
      pts2.map Prod.fst = natRangeZ pts2.length ∧
      ((pts2.length : ℤ) = e * (c.data_loader.length : ℤ)) := by
  obtain ⟨hne, hnone, hsome⟩ := trainEpoch_inv hok
  subst he
  rcases hld : c.data_loader with _ | ⟨b, bs⟩
  · exact absurd hld hne
  · have hstep : (trainStep c 1 0 (trainAcc0 c s) b).st.plt_train_loss
        = some [((0 : ℤ), c.lossF (c.modelF (trainAcc0 c s).st.mode
            (trainAcc0 c s).st.params b.1) b.2)] :=
      trainStep_plt_none c 1 0 (trainAcc0 c s) b hviz hpts
    obtain ⟨pts2, hp2, hm2, hl2⟩ := trainLoop_chart c 1 hviz bs 1
      (trainStep c 1 0 (trainAcc0 c s) b) _ hstep (by rfl) (by norm_num)
    have hacc : (epochAcc c s 1).st.plt_train_loss = some pts2 := by
      rw [epochAcc, hld, trainLoop]
      exact hp2
    have hfin : ((pts2.length : ℤ)) = 1 * (((b :: bs) : List (Data × Target)).length : ℤ) := by
      rw [hl2, List.length_cons]
      push_cast
      ring
    rcases hvd : c.valid_data_loader with _ | vb
    · obtain ⟨hs1, -⟩ := hnone hvd
      exact ⟨pts2, by rw [hs1]; exact hacc, hm2, hfin⟩
    · obtain ⟨vlog, hve, -⟩ := hsome vb hvd
      obtain ⟨-, -, -, hptr, -, -, -, -, -⟩ := validEpoch_inv hve
      exact ⟨pts2, by rw [hptr]; exact hacc, hm2, hfin⟩

theorem runEpochs_chart {P Data Target Output Labels : Type}
    (c : Config P Data Target Output Labels) (p : P)
    (hviz : c.visualize = true) :
    ∀ (k : ℕ) (s : RunnerState P), 1 ≤ k →
    runEpochs c (initState p) k = .ok s →
    ∃ pts, s.plt_train_loss = some pts ∧
      pts.map Prod.fst = natRangeZ pts.length ∧
      ((pts.length : ℤ) = (k : ℤ) * (c.data_loader.length : ℤ)) := by
  intro k
  induction k with
  | zero => exact fun s h => absurd h (by omega)
  | succ m ih =>
    intro s hk hok
    rw [runEpochs] at hok
    rcases hrm : runEpochs c (initState p) m with e | sm
    · rw [hrm] at hok
      exact absurd hok (by simp)
    · rw [hrm] at hok
      change epochStep c sm ((m : ℤ) + 1) = Except.ok s at hok
      rw [epochStep] at hok
      rcases hte : trainEpoch c sm ((m : ℤ) + 1) with e | ⟨s2, d⟩
      · rw [hte] at hok
        exact absurd hok (by simp)
      · rw [hte] at hok
        change Except.ok s2 = Except.ok s at hok
        rw [Except.ok.injEq] at hok
        subst hok
        by_cases hm : m = 0
        · subst hm
          have hsm : initState p = sm := by
            rw [runEpochs, Except.ok.injEq] at hrm
            exact hrm
          obtain ⟨pts2, h1, h2, h3⟩ := trainEpoch_chart_first hviz hte
            (by rw [← hsm]; rfl) (by norm_num)
          exact ⟨pts2, h1, h2, by rw [h3]; push_cast; ring⟩
        · obtain ⟨pts, hp, hmap, hlen⟩ := ih sm (by omega) hrm
          obtain ⟨pts2, h1, h2, h3⟩ := trainEpoch_chart_cont hviz hte pts hp
            hmap (by rw [hlen]; ring)
          exact ⟨pts2, h1, h2, by rw [h3]; push_cast; ring⟩

/-- Claim C6: with visualization enabled, over a run of k consecutive epochs
from a fresh runner, the training-loss chart holds one point per processed
batch, its x-coordinates are exactly the global batch counter 0, 1, ...,
k·B − 1 (never reset at an epoch boundary), and in particular they are
strictly increasing across all appended points. -/
theorem claim6_train_chart_strictly_increasing
    {P Data Target Output Labels : Type}
    (c : Config P Data Target Output Labels) (p : P) (k : ℕ)
    (s : RunnerState P)
    (hviz : c.visualize = true) (hk : 1 ≤ k)
    (hok : runEpochs c (initState p) k = .ok s) :
    ∃ pts, s.plt_train_loss = some pts ∧
      pts.map Prod.fst = natRangeZ pts.length ∧
      pts.length = k * c.data_loader.length ∧
      List.Pairwise (· < ·) (pts.map Prod.fst) := by
  obtain ⟨pts, h1, h2, h3⟩ := runEpochs_chart c p hviz k s hk hok
  refine ⟨pts, h1, h2, ?_, ?_⟩
  · exact_mod_cast h3
  · rw [h2]
    exact natRangeZ_pairwise _

/-- Visualization configuration: two batches with losses 1, 2, chart
enabled, no validation. -/
def cViz : Config Unit Unit ℚ ℚ Unit :=
  { cEx1 with data_loader := [((), 1), ((), 2)], visualize := true }

/-- Witness for claim C6: two epochs over two batches give the chart points
x = 0, 1, 2, 3. -/
theorem claim6_witness :
    ∃ pts, (⟨(), Mode.train,
        some [((0 : ℤ), (1 : ℚ)), ((1 : ℤ), (2 : ℚ)),
              ((2 : ℤ), (1 : ℚ)), ((3 : ℤ), (2 : ℚ))],
        none, []⟩ : RunnerState Unit).plt_train_loss = some pts ∧
      pts.map Prod.fst = natRangeZ pts.length ∧
      pts.length = 2 * cViz.data_loader.length ∧
      List.Pairwise (· < ·) (pts.map Prod.fst) :=
  claim6_train_chart_strictly_increasing cViz () 2
    ⟨(), Mode.train,
      some [((0 : ℤ), (1 : ℚ)), ((1 : ℤ), (2 : ℚ)),
            ((2 : ℤ), (1 : ℚ)), ((3 : ℤ), (2 : ℚ))],
      none, []⟩
    rfl (by omega)
    (by simp only [runEpochs, epochStep, trainEpoch, trainLoop, trainStep,
          initState, cViz, cEx1, vecAdd, evalMetrics, Config.log_step]
        norm_num)

end PTT
